import Mathlib

/-
Verification development for the Swoogo registrant evidence-capture pipeline
(`capture.js`).  The JavaScript source is shallowly embedded: every function of
the source that the properties below depend on is translated to an executable
Lean definition operating over explicit environment records that stand for the
observations the code makes of the browser, the filesystem and the network
(navigation success, locator counts, element visibility, upload success, ...).
Strings are handled as Lean `String`s; character-level matching is done over
their code-point lists so that the case-folding used by the source is fully
computable.
-/

set_option autoImplicit false

namespace Capture

universe u

/-- Boolean test that `p` is an initial segment of `l`. -/
def listLeads {α : Type u} [DecidableEq α] : List α → List α → Bool
  | [], _ => true
  | _ :: _, [] => false
  | a :: asTail, b :: bs => a = b && listLeads asTail bs

/-- Boolean test that `n` occurs as a contiguous sublist of the second list. -/
def listHas {α : Type u} [DecidableEq α] (n : List α) : List α → Bool
  | [] => n.isEmpty
  | b :: bs => listLeads n (b :: bs) || listHas n bs

/-- Character list of a string. -/
def lc (s : String) : List Char := s.data

/-- String from a character list. -/
def strOfChars (l : List Char) : String := String.mk l

/-- Code points of a string, as natural numbers. -/
def codes (s : String) : List Nat := s.data.map Char.toNat

/-- ASCII lower-casing on code points, the effect of JavaScript
`toLowerCase` on the ASCII identifiers the source matches against. -/
def lowerNat (n : Nat) : Nat := if 65 ≤ n ∧ n ≤ 90 then n + 32 else n

/-- Lower-cased code points of a string. -/
def codesLower (s : String) : List Nat := (codes s).map lowerNat

/-- Decimal digit test on characters, the `\d` class of the source regexes. -/
def isDig (c : Char) : Bool := 48 ≤ c.toNat && c.toNat ≤ 57

/-- Attempt to match `key` (for example `id=`) at the head of `l` followed by
at least one decimal digit; on success return the maximal digit run, the
captured group of the source regex. -/
def matchKeyAt (key l : List Char) : Option (List Char) :=
  if listLeads key l then
    let ds := (l.drop key.length).takeWhile isDig
    if ds.isEmpty then none else some ds
  else none

/-- Model of the JavaScript regex `/[?&]key(\d+)/.exec(s)` (with `key` of the
form `id=` or `eventId=`): scan left to right for a `?` or `&` followed by the
key and at least one digit, and return the first captured digit run. -/
def execParam (key : List Char) : List Char → Option (List Char)
  | [] => none
  | c :: r =>
    if c = '?' || c = '&' then
      match matchKeyAt key r with
      | some ds => some ds
      | none => execParam key r
    else execParam key r

/-- Characters replaced by `_` in the source helper `safe` (the class
`[<>:"/\\|?*\x00-\x1F]`). -/
def forbiddenFsChar (c : Char) : Bool :=
  c = '<' || c = '>' || c = ':' || c = '"' || c = '/' || c = '\\' ||
  c = '|' || c = '?' || c = '*' || decide (c.toNat < 32)

/-- ASCII whitespace, the characters JavaScript `trim` removes on the inputs
this application sees. -/
def isWsChar (c : Char) : Bool := c = ' ' || c = '\t' || c = '\n' || c = '\r'

/-- Model of JavaScript `String.prototype.trim`. -/
def trimStr (s : String) : String :=
  strOfChars ((((lc s).dropWhile isWsChar).reverse.dropWhile isWsChar).reverse)

/-- Model of `safe(s)` from the source: replace filesystem-hostile characters
by underscores and trim surrounding whitespace. -/
def safeName (s : String) : String :=
  trimStr (strOfChars ((lc s).map (fun c => if forbiddenFsChar c then '_' else c)))

/-- Registrant id extracted in `processRegistrant`:
`/[?&]id=(\d+)/.exec(registrantUrl)`, defaulting to `unknown`. -/
def regIdOf (url : String) : String :=
  match execParam (lc "id=") (lc url) with
  | some ds => strOfChars ds
  | none => "unknown"

/-- Per-registrant output directory `path.join(baseOutDir, regId)`. -/
def regDirOf (baseOutDir url : String) : String :=
  baseOutDir ++ "/" ++ regIdOf url

/-- Blob (and archive) name chosen in `processRegistrant`: `regId + ".zip"`. -/
def blobNameOf (url : String) : String := regIdOf url ++ ".zip"

/-! ## Process-level configuration and exit behaviour (`capture.js` main) -/

/-- Environment variables consumed by `buildAzureContainerClient`. -/
structure SysEnv where
  connectionString : String
  container : String
  sasUrl : String
deriving DecidableEq, Repr

/-- Model of `buildAzureContainerClient`: throws when `AZURE_BLOB_CONTAINER`
is unset, accepts a connection string, then a SAS URL, and otherwise throws.
This runs at module load, before any entity is read. -/
def buildAzureContainerClient (e : SysEnv) : Except String Unit :=
  if e.container = "" then
    Except.error "AZURE_BLOB_CONTAINER is not set"
  else if e.connectionString ≠ "" then Except.ok ()
  else if e.sasUrl ≠ "" then Except.ok ()
  else Except.error "Provide either AZURE_STORAGE_CONNECTION_STRING or AZURE_BLOB_SAS_URL"

/-- Whether constructing the container client succeeds. -/
def azureOk (e : SysEnv) : Bool :=
  match buildAzureContainerClient e with
  | Except.ok _ => true
  | Except.error _ => false

/-- Command-line arguments of the main program (fields relevant to control
flow; `inFile` is the `--in` CSV path). -/
structure CliArgs where
  inFile : Option String
  saveSession : Bool
  eventId : String
deriving DecidableEq, Repr

/-- One CSV row with its column aliases already coalesced and trimmed, as the
main loop does (`registrant_url`/`RegistrantURL`, `id`/`ID`/..., and
`eventId`/`Event ID`/`event_id`). -/
structure CsvRow where
  registrantUrl : String
  id : String
  eventId : String
deriving DecidableEq, Repr

/-- URL derived from one CSV row in the main loop: a nonempty
`registrant_url` wins; otherwise, when both an id and an event id (the
`--eventId` argument taking precedence over the CSV column) are present, the
canonical view URL is constructed; otherwise the row is unusable (empty).
`encodeURIComponent` is the identity on the digit strings used here. -/
def rowUrl (argEventId : String) (r : CsvRow) : String :=
  let ev := if trimStr argEventId ≠ "" then trimStr argEventId else r.eventId
  if r.registrantUrl ≠ "" then r.registrantUrl
  else if r.id ≠ "" && ev ≠ "" then
    "https://www.swoogo.com/loggedin/registrant/view?eventId=" ++ ev ++ "&id=" ++ r.id
  else ""

/-- Usable URLs collected from the CSV rows by the main loop. -/
def buildUrls (argEventId : String) (rows : List CsvRow) : List String :=
  (rows.map (rowUrl argEventId)).filter (fun u => u ≠ "")

/-- Exit status of the whole process. The container client is built at module
load: a configuration error there is an uncaught exception, which terminates
node with status 1. Then `--save-session` exits 0, a missing `--in` exits 1,
an empty usable-URL list exits 1, and otherwise the run finishes with status 0
(every per-entity error inside the loop is caught and logged). -/
def programExit (e : SysEnv) (a : CliArgs) (rows : List CsvRow) : Nat :=
  if azureOk e = false then 1
  else if a.saveSession then 0
  else if a.inFile.isNone then 1
  else if buildUrls a.eventId rows = [] then 1
  else 0

/-! ## URL resolution (model of the platform `new URL(href, base)`) -/

/-- Host part: characters of `l` up to the first slash. -/
def takeHost (l : List Char) : List Char := l.takeWhile (fun c => c ≠ '/')

/-- Whether a string is an absolute http(s) URL. Model of the absolute-URL
notion of the WHATWG parser for the address shapes this application uses. -/
def isAbsUrl (s : String) : Bool :=
  listLeads (lc "http://") (lc s) || listLeads (lc "https://") (lc s)

/-- Origin (scheme and host) of an absolute http(s) base URL. -/
def urlOrigin (base : String) : String :=
  if listLeads (lc "https://") (lc base) then
    strOfChars (lc "https://" ++ takeHost ((lc base).drop 8))
  else if listLeads (lc "http://") (lc base) then
    strOfChars (lc "http://" ++ takeHost ((lc base).drop 7))
  else ""

/-- Whether a character list contains a slash. -/
def hasSlash : List Char → Bool
  | [] => false
  | c :: r => c = '/' || hasSlash r

/-- Keep a character list up to and including its last slash (empty when it
has no slash). -/
def keepUpToLastSlash : List Char → List Char
  | [] => []
  | c :: r =>
    if hasSlash r then c :: keepUpToLastSlash r
    else if c = '/' then ['/'] else []

/-- Directory part of a base URL: strip the query, keep up to the last
slash. -/
def urlDir (base : String) : String :=
  strOfChars (keepUpToLastSlash ((lc base).takeWhile (fun c => c ≠ '?')))

/-- Model of `new URL(href, base).toString()` (equivalently of assigning
`href` to a detached anchor, as the in-page fallback scan of the source does):
absolute hrefs pass through, root-relative hrefs attach to the origin of the
base, and other hrefs attach to the directory of the base. -/
def resolveUrl (base href : String) : String :=
  if isAbsUrl href then href
  else if listLeads (lc "/") (lc href) then urlOrigin base ++ href
  else urlDir base ++ href

/-! ## Resource resolution (`findActionHrefByUrlContains`) -/

/-- One rendered anchor carrying an `href` attribute, in DOM order, together
with its Playwright visibility. -/
structure Anchor where
  href : String
  visible : Bool
deriving DecidableEq, Repr

/-- The in-page fallback of `findActionHrefByUrlContains`: scan every
`a[href]` in DOM order and return the first whose href contains one of the
(lower-cased) needles case-insensitively, resolved to an absolute URL. -/
def fallbackScanHref (pageUrl : String) (anchors : List Anchor)
    (wanted : List (List Nat)) : Option String :=
  (anchors.find? (fun a =>
      wanted.any (fun w => listHas w ((codes a.href).map lowerNat)))).map
    (fun a => resolveUrl pageUrl a.href)

/-- Model of `findActionHrefByUrlContains(page, needles)`.  The fast path is
the CSS locator `a[href*="n1"],a[href*="n2"],...` over the lower-cased
needles; CSS attribute substring matching is case-sensitive, so that locator
selects the first anchor in DOM order whose href contains a lower-cased
needle verbatim.  When that anchor is visible and its href attribute is
nonempty its resolved URL is returned; in every other case the in-page scan
`fallbackScanHref` decides. -/
def findActionHrefByUrlContains (pageUrl : String) (anchors : List Anchor)
    (needles : List String) : Option String :=
  match anchors.find? (fun a =>
      (needles.map codesLower).any (fun w => listHas w (codes a.href))) with
  | some a =>
    if a.visible && a.href ≠ "" then some (resolveUrl pageUrl a.href)
    else fallbackScanHref pageUrl anchors (needles.map codesLower)
  | none => fallbackScanHref pageUrl anchors (needles.map codesLower)

/-- Definition following the specification's words for `resolveHref`
(refinement comparison only): the first anchor in DOM order whose target
address contains any keyword as a case-insensitive substring wins, with no
other consideration. -/
def firstDomOrderCiHref (pageUrl : String) (anchors : List Anchor)
    (needles : List String) : Option String :=
  (anchors.find? (fun a =>
      needles.any (fun n => listHas (codesLower n) ((codes a.href).map lowerNat)))).map
    (fun a => resolveUrl pageUrl a.href)

/-! ## Capture strategies -/

/-- The six evidence types captured per registrant. -/
inductive EvKind where
  | attendance
  | contact
  | ticketEmail
  | qr
  | confirmation
  | invoice
deriving DecidableEq, Repr

/-- Files emitted by `captureFullPage(page, fileBase, opts)`: always
`fileBase + ".png"`, plus a `.pdf` sibling when the pdf option is set and
`page.pdf` succeeds (its errors are swallowed); the flag below stands for
that conjunction. -/
def captureFullPageFiles (pdf : Bool) (fileBase : String) : List String :=
  (fileBase ++ ".png") :: (if pdf then [fileBase ++ ".pdf"] else [])

/-- Which page region a confirmation capture actually screenshotted. -/
inductive ConfSource where
  | iframeBody
  | regionSelector
  | fullPage
deriving DecidableEq, Repr

/-- Observations `captureConfirmationEmail` makes of the page: the number of
`iframe` elements, whether the screenshot of the first iframe's body succeeds
(that call sits in a try block), and the number of elements matching the
email-body candidate selector list. -/
structure ConfPage where
  iframeCount : Nat
  iframeShotOk : Bool
  emailCandCount : Nat
deriving DecidableEq, Repr

/-- Model of `captureConfirmationEmail(page, fileBaseDir, baseName)`: when at
least one iframe exists, screenshot the first iframe's body (errors
swallowed); only when that left nothing saved and a candidate-selector match
exists, screenshot the first candidate region; only when nothing was saved,
screenshot the full page under the `_Confirmation_full` name.  Returns the
region used and the one file written. -/
def captureConfirmationEmail (p : ConfPage) (fileBaseDir baseName : String) :
    ConfSource × String :=
  if p.iframeCount ≠ 0 && p.iframeShotOk then
    (ConfSource.iframeBody, fileBaseDir ++ "/" ++ baseName ++ "__05_Confirmation_email.png")
  else if p.emailCandCount ≠ 0 then
    (ConfSource.regionSelector, fileBaseDir ++ "/" ++ baseName ++ "__05_Confirmation_email.png")
  else
    (ConfSource.fullPage, fileBaseDir ++ "/" ++ baseName ++ "__05_Confirmation_full.png")

/-- Definition following the specification's words for the RegionCrop
strategy (refinement comparison only): search the ordered candidate selectors
first, delegate to the embedded-frame capture only when no selector matches
and at least one frame exists, and fall back to a full-page capture when
nothing matches. -/
def captureConfirmationEmailSpecOrder (p : ConfPage) (fileBaseDir baseName : String) :
    ConfSource × String :=
  if p.emailCandCount ≠ 0 then
    (ConfSource.regionSelector, fileBaseDir ++ "/" ++ baseName ++ "__05_Confirmation_email.png")
  else if p.iframeCount ≠ 0 then
    (ConfSource.iframeBody, fileBaseDir ++ "/" ++ baseName ++ "__05_Confirmation_email.png")
  else
    (ConfSource.fullPage, fileBaseDir ++ "/" ++ baseName ++ "__05_Confirmation_full.png")

/-- Observations `captureIframeBySrc` makes: whether the preview iframe
element attaches within the 15 s `waitForSelector` bound, and whether its
`contentFrame()` resolves. -/
structure IframePage where
  attached : Bool
  contentFrameOk : Bool
deriving DecidableEq, Repr

/-- Rename applied by the fallback branch of `captureIframeBySrc`:
`outputPath.replace(/.png$/, "__full.png")` (one trailing character plus
`png` replaced). -/
def pngToFullName (outputPath : String) : String :=
  if listLeads (lc "gnp") ((lc outputPath).reverse) && 4 ≤ (lc outputPath).length then
    strOfChars (((lc outputPath).take ((lc outputPath).length - 4)) ++ lc "__full.png")
  else outputPath

/-- Model of `captureIframeBySrc(page, srcKeyword, outputPath)`.  When
`waitForSelector` times out the TimeoutError propagates to the caller
(`Except.error`); when the element attaches but `contentFrame()` is null a
full-page screenshot is saved under the `__full` name; otherwise the inner
document's root is screenshotted to `outputPath`.  The returned list holds
the files written. -/
def captureIframeBySrc (p : IframePage) (outputPath : String) :
    Except Unit (List String) :=
  if p.attached = false then Except.error ()
  else if p.contentFrameOk = false then Except.ok [pngToFullName outputPath]
  else Except.ok [outputPath]

/-! ## Send-email link discovery (`getSendEmailHref`) -/

/-- Observations `getSendEmailHref` makes of the current page: the href of
the first anchor pointing at `/loggedin/registrant/send-email` (when one
exists) and the action of the first form posting there (when one exists). -/
structure SendPage where
  anchorSendHref : Option String
  formSendAction : Option String
deriving DecidableEq, Repr

/-- Address constructed by the third branch of `getSendEmailHref` from the
registrant URL's `id` and `eventId` query parameters, with the deployment's
default email type constant. -/
def constructedSendEmailHref (registrantUrl : String) : Option String :=
  match execParam (lc "id=") (lc registrantUrl),
        execParam (lc "eventId=") (lc registrantUrl) with
  | some i, some e =>
    some ("https://www.swoogo.com/loggedin/registrant/send-email?eventId=" ++
      strOfChars e ++ "&id=" ++ strOfChars i ++ "&RegistrantEmailForm%5Btype%5D=4840855")
  | _, _ => none

/-- Model of `getSendEmailHref(page, opts)`: a nonempty anchor href wins,
then a nonempty form action, then the constructed address, else null. -/
def getSendEmailHref (p : SendPage) (pageUrl registrantUrl : String) :
    Option String :=
  match p.anchorSendHref with
  | some h =>
    if h ≠ "" then some (resolveUrl pageUrl h)
    else
      match p.formSendAction with
      | some act =>
        if act ≠ "" then some (resolveUrl pageUrl act)
        else constructedSendEmailHref registrantUrl
      | none => constructedSendEmailHref registrantUrl
  | none =>
    match p.formSendAction with
    | some act =>
      if act ≠ "" then some (resolveUrl pageUrl act)
      else constructedSendEmailHref registrantUrl
    | none => constructedSendEmailHref registrantUrl

/-! ## Per-entity pipeline (`processRegistrant` and its helpers) -/

/-- Observations of the QR step: whether the first element matching
`a[href*="/loggedin/registrant/send-email"], form[action*=...]` is visible,
its `href` attribute (null on a form or a missing attribute), and whether the
navigation to it succeeds. -/
structure QrPage where
  linkVisible : Bool
  hrefAttr : Option String
  navOk : Bool
deriving DecidableEq, Repr

/-- Outcomes of `zipDirectory` and `uploadZip` inside
`uploadAndCleanupRegistrant`. -/
structure UploadEnv where
  zipOk : Bool
  uploadOk : Bool
deriving DecidableEq, Repr

/-- Run configuration threaded through `processRegistrant`. -/
structure Cfg where
  baseOutDir : String
  pdf : Bool
  containerUrl : String
deriving DecidableEq, Repr

/-- Environment of one `processRegistrant` invocation: the registrant URL and
the outcome of every browser/filesystem/network observation the function
makes, in program order. -/
structure RegEnv where
  registrantUrl : String
  homeNavOk : Bool
  homeAnchors : List Anchor
  confNavOk : Bool
  confPage : ConfPage
  confActionsOk : Bool
  confMenuClickOk : Bool
  confFallbackPage : ConfPage
  invNavOk : Bool
  invActionsOk : Bool
  invMenuClickOk : Bool
  sendPage : SendPage
  ticketNavOk : Bool
  iframePage : IframePage
  qrPage : QrPage
  up : UploadEnv
deriving DecidableEq, Repr

/-- Result of one evidence step: the tagged files it wrote and whether an
exception escaped it (ending the entity's job). -/
structure StepRes where
  files : List (EvKind × String)
  fatal : Bool
deriving DecidableEq, Repr

/-- Model of `uploadAndCleanupRegistrant(containerClient, regDir, blobName)`:
zip the directory to a temp archive, upload it, delete the temp archive
(errors swallowed) and remove the directory, returning the blob URL.  A zip
or upload failure rejects before any deletion happens. -/
def uploadAndCleanupRegistrant (u : UploadEnv) (cfg : Cfg) (blobName : String) :
    Except Unit String :=
  if u.zipOk = false then Except.error ()
  else if u.uploadOk = false then Except.error ()
  else Except.ok (cfg.containerUrl ++ "/" ++ blobName)

/-- Confirmation step of `processRegistrant` (section 05): when an action
href containing `confirmation` was resolved, navigate there (a navigation
failure propagates and is fatal to the job) and run the confirmation
capture; otherwise open the Actions menu and click the Confirmation menu item
inside a try block that swallows every error, capturing only when both
succeed. -/
def confirmationStep (env : RegEnv) (regDir baseName : String) : StepRes :=
  match findActionHrefByUrlContains env.registrantUrl env.homeAnchors ["confirmation"] with
  | some _ =>
    if env.confNavOk then
      { files := [(EvKind.confirmation, (captureConfirmationEmail env.confPage regDir baseName).2)],
        fatal := false }
    else { files := [], fatal := true }
  | none =>
    if env.confActionsOk && env.confMenuClickOk then
      { files := [(EvKind.confirmation, (captureConfirmationEmail env.confFallbackPage regDir baseName).2)],
        fatal := false }
    else { files := [], fatal := false }

/-- Invoice step of `processRegistrant` (section 06): when an action href
containing `invoice` was resolved, navigate there (a navigation failure
propagates and is fatal) and capture the full page; otherwise attempt the
menu-click fallback inside a try block, capturing the resulting surface
under the same `__06_Invoice` base name when it succeeds. -/
def invoiceStep (cfg : Cfg) (env : RegEnv) (regDir baseName : String) : StepRes :=
  match findActionHrefByUrlContains env.registrantUrl env.homeAnchors ["invoice"] with
  | some _ =>
    if env.invNavOk then
      { files := (captureFullPageFiles cfg.pdf (regDir ++ "/" ++ baseName ++ "__06_Invoice")).map
          (fun f => (EvKind.invoice, f)),
        fatal := false }
    else { files := [], fatal := true }
  | none =>
    if env.invActionsOk && env.invMenuClickOk then
      { files := (captureFullPageFiles cfg.pdf (regDir ++ "/" ++ baseName ++ "__06_Invoice")).map
          (fun f => (EvKind.invoice, f)),
        fatal := false }
    else { files := [], fatal := false }

/-- Ticket-email step of `processRegistrant` (section 03), whose body is one
try block whose errors are all caught and logged: when no send-email address
resolves nothing at all is captured; when navigation to it fails, or the
iframe wait times out, the exception is caught and nothing is captured;
otherwise the files of `captureIframeBySrc` are recorded. -/
def ticketStep (env : RegEnv) (regDir baseName : String) : List (EvKind × String) :=
  match getSendEmailHref env.sendPage env.registrantUrl env.registrantUrl with
  | none => []
  | some _ =>
    if env.ticketNavOk then
      match captureIframeBySrc env.iframePage
          (regDir ++ "/" ++ baseName ++ "__03_Ticket_Email_Preview.png") with
      | Except.ok fs => fs.map (fun f => (EvKind.ticketEmail, f))
      | Except.error _ => []
    else []

/-- QR step of `processRegistrant` (section 04), also one error-swallowing
try block: nothing is captured unless the send-email link is visible; with a
nonempty href the step navigates (a failure is caught, capturing nothing) and
takes a full-page capture; with a null or empty href it captures the current
page directly. -/
def qrStep (cfg : Cfg) (env : RegEnv) (regDir baseName : String) :
    List (EvKind × String) :=
  if env.qrPage.linkVisible then
    match env.qrPage.hrefAttr with
    | some h =>
      if h ≠ "" then
        if env.qrPage.navOk then
          (captureFullPageFiles cfg.pdf (regDir ++ "/" ++ baseName ++ "__04_QR_Code_Ticket_Email")).map
            (fun f => (EvKind.qr, f))
        else []
      else
        (captureFullPageFiles cfg.pdf (regDir ++ "/" ++ baseName ++ "__04_QR_Code_Ticket_Email")).map
          (fun f => (EvKind.qr, f))
    | none =>
      (captureFullPageFiles cfg.pdf (regDir ++ "/" ++ baseName ++ "__04_QR_Code_Ticket_Email")).map
        (fun f => (EvKind.qr, f))
  else []

/-- Observable outcome of one `processRegistrant` invocation: whether its
output directory was created, every evidence file written (tagged by kind),
the remote blob URL on confirmed upload, whether the local directory was
removed, whether the temp archive was left behind, and whether an exception
escaped the call (making the main loop mark the entity failed). -/
structure ProcResult where
  dirCreated : Bool
  files : List (EvKind × String)
  remoteUrl : Option String
  dirRemoved : Bool
  tmpZipRetained : Bool
  errored : Bool
deriving DecidableEq, Repr

/-- Model of `processRegistrant(page, registrantUrl, baseOutDir, ...)`.  The
initial `page.goto` failure propagates before the directory is even created.
Then: the directory is created, attendance and contact are captured from the
home surface, both action hrefs are pulled from the (opened) Actions menu,
and the confirmation, invoice, ticket-email and QR steps run in order — a
navigation failure inside the confirmation or invoice direct-href branch
propagates immediately, skipping everything that follows including
packaging.  Finally the zip-upload-delete block runs inside a try whose
failure keeps the local folder. -/
def processRegistrant (cfg : Cfg) (env : RegEnv) : ProcResult :=
  if env.homeNavOk = false then
    { dirCreated := false, files := [], remoteUrl := none,
      dirRemoved := false, tmpZipRetained := false, errored := true }
  else
    let regDir := regDirOf cfg.baseOutDir env.registrantUrl
    let baseName := safeName (regIdOf env.registrantUrl)
    let pre :=
      (captureFullPageFiles cfg.pdf (regDir ++ "/" ++ baseName ++ "__01_Attendance_Status_Proof")).map
        (fun f => (EvKind.attendance, f)) ++
      (captureFullPageFiles cfg.pdf (regDir ++ "/" ++ baseName ++ "__02_Contact_Details")).map
        (fun f => (EvKind.contact, f))
    let cs := confirmationStep env regDir baseName
    if cs.fatal then
      { dirCreated := true, files := pre ++ cs.files, remoteUrl := none,
        dirRemoved := false, tmpZipRetained := false, errored := true }
    else
      let is := invoiceStep cfg env regDir baseName
      if is.fatal then
        { dirCreated := true, files := pre ++ cs.files ++ is.files, remoteUrl := none,
          dirRemoved := false, tmpZipRetained := false, errored := true }
      else
        let allFiles := pre ++ cs.files ++ is.files ++
          ticketStep env regDir baseName ++ qrStep cfg env regDir baseName
        match uploadAndCleanupRegistrant env.up cfg (blobNameOf env.registrantUrl) with
        | Except.ok url =>
          { dirCreated := true, files := allFiles, remoteUrl := some url,
            dirRemoved := true, tmpZipRetained := false, errored := false }
        | Except.error _ =>
          { dirCreated := true, files := allFiles, remoteUrl := none,
            dirRemoved := false, tmpZipRetained := env.up.zipOk, errored := false }

/-- Number of files of one evidence kind in a result. -/
def countK (r : ProcResult) (k : EvKind) : Nat :=
  r.files.countP (fun p => p.1 = k)

/-- Whether the confirmation step ends the job (a resolved href whose
navigation fails). -/
def confFatal (env : RegEnv) : Bool :=
  (findActionHrefByUrlContains env.registrantUrl env.homeAnchors ["confirmation"]).isSome &&
    !env.confNavOk

/-- Whether the invoice step ends the job. -/
def invFatal (env : RegEnv) : Bool :=
  (findActionHrefByUrlContains env.registrantUrl env.homeAnchors ["invoice"]).isSome &&
    !env.invNavOk

/-- Whether control reaches the zip-upload-delete block. -/
def packagingReached (env : RegEnv) : Bool :=
  env.homeNavOk && !confFatal env && !invFatal env

/-! ## DOM style effect of the FullPage strategy
(`expandScrollableContainers` / `restoreScrollableContainers`) -/

/-- The four inline style properties the expansion touches (empty string for
an unset property, as in the CSSOM). -/
structure Style where
  height : String
  maxHeight : String
  overflowY : String
  overflow : String
deriving DecidableEq, Repr

/-- One DOM element as the expansion sees it: its inline style, the
stylesheet-cascaded overflow-y that applies when no inline value does, its
scroll and client heights, and the `__pre_expand__` attribute. The page is a
list of such elements in document order, the document element first and the
body second. -/
structure PElem where
  style : Style
  sheetOverflowY : String
  scrollH : Nat
  clientH : Nat
  preExpand : Option Style
deriving DecidableEq, Repr

/-- Computed overflow-y of an element: inline `overflow-y` wins, then the
inline `overflow` shorthand, then the stylesheet value (simplified cascade
model). -/
def computedOverflowY (el : PElem) : String :=
  if el.style.overflowY ≠ "" then el.style.overflowY
  else if el.style.overflow ≠ "" then el.style.overflow
  else el.sheetOverflowY

/-- The `isScrollable` test of `expandScrollableContainers`. -/
def isScrollableEl (el : PElem) : Bool :=
  (computedOverflowY el = "auto" || computedOverflowY el = "scroll") &&
    el.clientH < el.scrollH

/-- Set the inline `overflow` of an element, as the two root overrides do. -/
def setOverflowVisible (el : PElem) : PElem :=
  { el with style := { el.style with overflow := "visible" } }

/-- The two unconditional assignments at the top of the expansion:
`document.documentElement.style.overflow = "visible"` and the same for
`document.body` (the first two elements of the page list). -/
def overrideRootsOverflow : List PElem → List PElem
  | h :: b :: rest => setOverflowVisible h :: setOverflowVisible b :: rest
  | l => l

/-- Per-element body of the expansion loop: a scrollable element saves its
current inline values into `__pre_expand__`, then gets its height pinned to
its scroll height and its overflow opened. -/
def expandOne (el : PElem) : PElem :=
  if isScrollableEl el then
    { el with
      preExpand := some el.style,
      style := { height := toString el.scrollH ++ "px", maxHeight := "none",
                 overflowY := "visible", overflow := "visible" } }
  else el

/-- Model of `expandScrollableContainers(page)`. -/
def expandScrollableContainers (page : List PElem) : List PElem :=
  (overrideRootsOverflow page).map expandOne

/-- JavaScript `s || ""` on strings. -/
def jsOrEmpty (s : String) : String := if s = "" then "" else s

/-- Per-element body of `restoreScrollableContainers`: an element carrying
`__pre_expand__` gets the four saved values written back (through `|| ""`)
and the attribute removed; every other element is untouched. -/
def restoreOne (el : PElem) : PElem :=
  match el.preExpand with
  | some prev =>
    { el with
      style := { height := jsOrEmpty prev.height, maxHeight := jsOrEmpty prev.maxHeight,
                 overflowY := jsOrEmpty prev.overflowY, overflow := jsOrEmpty prev.overflow },
      preExpand := none }
  | none => el

/-- Model of `restoreScrollableContainers(page)`. -/
def restoreScrollableContainers (page : List PElem) : List PElem :=
  page.map restoreOne

/-- Inline-style effect of one `captureFullPage` call on the page: expand,
screenshot (no style effect), restore. -/
def captureFullPageStyles (page : List PElem) : List PElem :=
  restoreScrollableContainers (expandScrollableContainers page)

/-! ## Supporting lemmas -/

theorem listLeads_append_self {α : Type u} [DecidableEq α] (p x : List α) :
    listLeads p (p ++ x) = true := by
  induction p with
  | nil => rfl
  | cons a t ih => simp [listLeads, ih]

theorem listLeads_eq_true_iff {α : Type u} [DecidableEq α] {p l : List α} :
    listLeads p l = true ↔ ∃ r, l = p ++ r := by
  induction p generalizing l with
  | nil => simp [listLeads]
  | cons a t ih =>
    cases l with
    | nil => simp [listLeads]
    | cons b bs =>
      simp only [listLeads, Bool.and_eq_true, decide_eq_true_eq, ih]
      constructor
      · rintro ⟨rfl, r, rfl⟩
        exact ⟨r, rfl⟩
      · rintro ⟨r, h⟩
        obtain ⟨rfl, rfl⟩ : b = a ∧ bs = t ++ r := by
          simpa using congrArg (fun l => (l.head?, l.tail)) h
        exact ⟨rfl, r, rfl⟩

theorem listLeads_append_right {α : Type u} [DecidableEq α] {p q : List α}
    (h : listLeads p q = true) (r : List α) : listLeads p (q ++ r) = true := by
  obtain ⟨s, rfl⟩ := listLeads_eq_true_iff.mp h
  rw [List.append_assoc]
  exact listLeads_append_self p (s ++ r)

theorem listLeads_map {α : Type u} {β : Type u} [DecidableEq α] [DecidableEq β]
    (f : α → β) : ∀ {p l : List α}, listLeads p l = true →
    listLeads (p.map f) (l.map f) = true := by
  intro p
  induction p with
  | nil => intro l _; rfl
  | cons a t ih =>
    intro l h
    cases l with
    | nil => simp [listLeads] at h
    | cons b bs =>
      simp only [listLeads, Bool.and_eq_true, decide_eq_true_eq] at h
      simp only [List.map_cons, listLeads, Bool.and_eq_true, decide_eq_true_eq]
      exact ⟨congrArg f h.1, ih h.2⟩

theorem listHas_map {α : Type u} {β : Type u} [DecidableEq α] [DecidableEq β]
    (f : α → β) {n : List α} : ∀ {l : List α}, listHas n l = true →
    listHas (n.map f) (l.map f) = true := by
  intro l
  induction l with
  | nil =>
    intro h
    simp only [listHas, List.isEmpty_iff] at h
    simp [h, listHas]
  | cons b bs ih =>
    intro h
    simp only [listHas, Bool.or_eq_true] at h
    simp only [List.map_cons, listHas, Bool.or_eq_true]
    rcases h with h | h
    · exact Or.inl (by simpa using listLeads_map f h)
    · exact Or.inr (ih h)

theorem lowerNat_idem (n : Nat) : lowerNat (lowerNat n) = lowerNat n := by
  by_cases h : 65 ≤ n ∧ n ≤ 90
  · have h2 : ¬ (65 ≤ n + 32 ∧ n + 32 ≤ 90) := by omega
    simp [lowerNat, h, h2]
    omega
  · simp [lowerNat, h]

theorem mapLower_idem (l : List Nat) : (l.map lowerNat).map lowerNat = l.map lowerNat := by
  rw [List.map_map]
  exact List.map_congr_left (fun a _ => lowerNat_idem a)

theorem any_over_map {α : Type u} {β : Type u} (f : α → β) (p : β → Bool) :
    ∀ l : List α, (l.map f).any p = l.any (fun x => p (f x)) := by
  intro l
  induction l with
  | nil => rfl
  | cons a t ih => simp [ih]

/-- A case-sensitive occurrence of an already-lower-cased needle survives
lower-casing the haystack. -/
theorem listHas_lower_of_listHas (n : List Nat) {h : List Nat}
    (hh : listHas (n.map lowerNat) h = true) :
    listHas (n.map lowerNat) (h.map lowerNat) = true := by
  have := listHas_map lowerNat hh
  rwa [mapLower_idem] at this

theorem lc_mk (l : List Char) : lc (strOfChars l) = l := rfl

theorem lc_append (s t : String) : lc (s ++ t) = lc s ++ lc t :=
  String.data_append s t

theorem hasSlash_append (a b : List Char) :
    hasSlash (a ++ b) = (hasSlash a || hasSlash b) := by
  induction a with
  | nil => simp [hasSlash]
  | cons c t ih => simp [hasSlash, ih, Bool.or_assoc]

theorem keepUpToLastSlash_structured (q r : List Char) :
    keepUpToLastSlash (q ++ '/' :: r) =
      q ++ '/' :: (if hasSlash r then keepUpToLastSlash r else []) := by
  induction q with
  | nil => by_cases hs : hasSlash r <;> simp [keepUpToLastSlash, hs]
  | cons c t ih =>
    have hsl : hasSlash (t ++ '/' :: r) = true := by
      simp [hasSlash_append, hasSlash]
    simp only [List.cons_append, keepUpToLastSlash, List.append_eq, hsl, if_true, ih]

theorem takeWhileAppendAll {p : Char → Bool} {a : List Char}
    (h : ∀ x ∈ a, p x = true) (b : List Char) :
    (a ++ b).takeWhile p = a ++ b.takeWhile p := by
  induction a with
  | nil => rfl
  | cons c t ih =>
    have hc : p c = true := h c (by simp)
    simp only [List.cons_append, List.takeWhile_cons, hc, if_true]
    rw [ih (fun x hx => h x (by simp [hx]))]

theorem leads_keepUpToLastSlash (q r : List Char) :
    listLeads (q ++ ['/']) (keepUpToLastSlash (q ++ '/' :: r)) = true := by
  rw [keepUpToLastSlash_structured]
  have hrw : q ++ '/' :: (if hasSlash r then keepUpToLastSlash r else []) =
      (q ++ ['/']) ++ (if hasSlash r then keepUpToLastSlash r else []) := by simp
  rw [hrw]
  exact listLeads_append_self _ _

theorem isAbs_urlOrigin_append (base href : String) (h : isAbsUrl base = true) :
    isAbsUrl (urlOrigin base ++ href) = true := by
  unfold isAbsUrl at h ⊢
  unfold urlOrigin
  by_cases hs : listLeads (lc "https://") (lc base) = true
  · rw [if_pos hs, Bool.or_eq_true]
    refine Or.inr ?_
    rw [lc_append, lc_mk, List.append_assoc]
    exact listLeads_append_self _ _
  · have hh : listLeads (lc "http://") (lc base) = true := by
      rw [Bool.or_eq_true] at h
      rcases h with h1 | h1
      · exact h1
      · exact absurd h1 hs
    rw [if_neg hs, if_pos hh, Bool.or_eq_true]
    refine Or.inl ?_
    rw [lc_append, lc_mk, List.append_assoc]
    exact listLeads_append_self _ _

theorem isAbs_urlDir_append (base href : String) (h : isAbsUrl base = true) :
    isAbsUrl (urlDir base ++ href) = true := by
  unfold isAbsUrl at h ⊢
  unfold urlDir
  rw [Bool.or_eq_true] at h
  rcases h with h1 | h1
  · rw [Bool.or_eq_true]
    refine Or.inl ?_
    obtain ⟨r, hr⟩ := listLeads_eq_true_iff.mp h1
    rw [lc_append, lc_mk, hr]
    have hq : (lc "http://") = lc "http:/" ++ ['/'] := by decide
    have hnq : ∀ x ∈ lc "http://", (x ≠ '?' : Bool) = true := by decide
    rw [takeWhileAppendAll hnq r, hq, List.append_assoc, List.singleton_append]
    rw [← hq]
    have := leads_keepUpToLastSlash (lc "http:/") (r.takeWhile (fun c => c ≠ '?'))
    rw [← hq] at this
    exact listLeads_append_right this _
  · rw [Bool.or_eq_true]
    refine Or.inr ?_
    obtain ⟨r, hr⟩ := listLeads_eq_true_iff.mp h1
    rw [lc_append, lc_mk, hr]
    have hq : (lc "https://") = lc "https:/" ++ ['/'] := by decide
    have hnq : ∀ x ∈ lc "https://", (x ≠ '?' : Bool) = true := by decide
    rw [takeWhileAppendAll hnq r, hq, List.append_assoc, List.singleton_append]
    rw [← hq]
    have := leads_keepUpToLastSlash (lc "https:/") (r.takeWhile (fun c => c ≠ '?'))
    rw [← hq] at this
    exact listLeads_append_right this _

theorem isAbsUrl_resolveUrl (base href : String) (h : isAbsUrl base = true) :
    isAbsUrl (resolveUrl base href) = true := by
  unfold resolveUrl
  split
  · assumption
  · split
    · exact isAbs_urlOrigin_append base href h
    · exact isAbs_urlDir_append base href h

theorem jsOrEmpty_eq (s : String) : jsOrEmpty s = s := by
  unfold jsOrEmpty
  split
  · rename_i h
    exact h.symm
  · rfl

theorem restore_style_id (s : Style) :
    Style.mk (jsOrEmpty s.height) (jsOrEmpty s.maxHeight) (jsOrEmpty s.overflowY)
      (jsOrEmpty s.overflow) = s := by
  cases s
  simp [jsOrEmpty_eq]

/-- On an element that starts without a stale `__pre_expand__` attribute, the
restore pass exactly undoes the expand pass. -/
theorem restoreOne_expandOne (el : PElem) (h : el.preExpand = none) :
    restoreOne (expandOne el) = el := by
  cases el with
  | mk st sheet sh ch pe =>
    have hp : pe = none := h
    subst hp
    unfold expandOne restoreOne
    by_cases hs : isScrollableEl ⟨st, sheet, sh, ch, none⟩ = true
    · simp only [hs, if_true]
      simp [restore_style_id]
    · simp [hs]

theorem captureFullPageStyles_eq_map (page : List PElem) :
    captureFullPageStyles page =
      (overrideRootsOverflow page).map (fun el => restoreOne (expandOne el)) := by
  unfold captureFullPageStyles restoreScrollableContainers expandScrollableContainers
  rw [List.map_map]
  rfl

theorem overrideRootsOverflow_getElem (page : List PElem) (i : Nat) (hi : 2 ≤ i) :
    (overrideRootsOverflow page)[i]? = page[i]? := by
  match page with
  | [] => rfl
  | [a] => rfl
  | a :: b :: r =>
    obtain ⟨j, rfl⟩ : ∃ j, i = j + 2 := ⟨i - 2, by omega⟩
    simp [overrideRootsOverflow]

/-- After one capture, the restore pass on an overridden root leaves its
inline overflow at the value `visible` written by the expansion. -/
theorem rootOverflow_after (el : PElem) (h : el.preExpand = none) :
    (restoreOne (expandOne (setOverflowVisible el))).style.overflow = "visible" := by
  cases el with
  | mk st sheet sh ch pe =>
    have hp : pe = none := h
    subst hp
    unfold setOverflowVisible expandOne restoreOne
    by_cases hs : isScrollableEl
        ⟨{ st with overflow := "visible" }, sheet, sh, ch, none⟩ = true
    · simp only [hs, if_true]
      simp [jsOrEmpty]
    · simp [hs]

theorem confirmationStep_fatal_eq (env : RegEnv) (d b : String) :
    (confirmationStep env d b).fatal = confFatal env := by
  unfold confirmationStep confFatal
  cases hc : findActionHrefByUrlContains env.registrantUrl env.homeAnchors ["confirmation"] with
  | none =>
    split
    · simp_all
    · split <;> simp
  | some u => by_cases hn : env.confNavOk <;> simp [hn]

theorem invoiceStep_fatal_eq (cfg : Cfg) (env : RegEnv) (d b : String) :
    (invoiceStep cfg env d b).fatal = invFatal env := by
  unfold invoiceStep invFatal
  cases hc : findActionHrefByUrlContains env.registrantUrl env.homeAnchors ["invoice"] with
  | none =>
    split
    · simp_all
    · split <;> simp
  | some u => by_cases hn : env.invNavOk <;> simp [hn]

theorem countP_tagged (k k' : EvKind) (fs : List String) :
    List.countP (fun p => decide (p.1 = k')) (fs.map (fun f => (k, f))) =
      if k = k' then fs.length else 0 := by
  rw [List.countP_map]
  by_cases h : k = k' <;> simp [Function.comp, h]

theorem countP_comp_tag (k k' : EvKind) (fs : List String) :
    List.countP ((fun p : EvKind × String => decide (p.1 = k')) ∘ fun f => (k, f)) fs =
      if k = k' then fs.length else 0 := by
  by_cases h : k = k' <;> simp [Function.comp, h]

theorem length_captureFullPageFiles (pdf : Bool) (x : String) :
    1 ≤ (captureFullPageFiles pdf x).length := by
  unfold captureFullPageFiles
  simp

/-- In every non-early-return branch after a successful home navigation, the
file list starts with the attendance and contact captures followed by the
confirmation step's files. -/
theorem processRegistrant_files_decomp (cfg : Cfg) (env : RegEnv)
    (h : env.homeNavOk = true) :
    ∃ rest, (processRegistrant cfg env).files =
      (captureFullPageFiles cfg.pdf (regDirOf cfg.baseOutDir env.registrantUrl ++ "/" ++
        safeName (regIdOf env.registrantUrl) ++ "__01_Attendance_Status_Proof")).map
          (fun f => (EvKind.attendance, f)) ++
      ((captureFullPageFiles cfg.pdf (regDirOf cfg.baseOutDir env.registrantUrl ++ "/" ++
        safeName (regIdOf env.registrantUrl) ++ "__02_Contact_Details")).map
          (fun f => (EvKind.contact, f)) ++
      ((confirmationStep env (regDirOf cfg.baseOutDir env.registrantUrl)
          (safeName (regIdOf env.registrantUrl))).files ++ rest)) := by
  unfold processRegistrant
  simp only [h, Bool.true_eq_false, if_false]
  split
  · exact ⟨[], by simp⟩
  · split
    · exact ⟨(invoiceStep cfg env (regDirOf cfg.baseOutDir env.registrantUrl)
        (safeName (regIdOf env.registrantUrl))).files, by simp⟩
    · split
      · exact ⟨(invoiceStep cfg env (regDirOf cfg.baseOutDir env.registrantUrl)
            (safeName (regIdOf env.registrantUrl))).files ++
          ticketStep env (regDirOf cfg.baseOutDir env.registrantUrl)
            (safeName (regIdOf env.registrantUrl)) ++
          qrStep cfg env (regDirOf cfg.baseOutDir env.registrantUrl)
            (safeName (regIdOf env.registrantUrl)), by simp⟩
      · exact ⟨(invoiceStep cfg env (regDirOf cfg.baseOutDir env.registrantUrl)
            (safeName (regIdOf env.registrantUrl))).files ++
          ticketStep env (regDirOf cfg.baseOutDir env.registrantUrl)
            (safeName (regIdOf env.registrantUrl)) ++
          qrStep cfg env (regDirOf cfg.baseOutDir env.registrantUrl)
            (safeName (regIdOf env.registrantUrl)), by simp⟩

/-! ## Concrete fixtures used by the closed checks -/

/-- A run configuration with pdf export off. -/
def cfgEx : Cfg := ⟨"out", false, "https://acct.blob.core.windows.net/swoogo-evidence"⟩

/-- A well-behaved registrant whose URL has an id but no event id, whose page
shows Actions links for confirmation and invoice, but which exposes no
send-email anchor or form and no visible QR link. -/
def envHappy : RegEnv :=
  { registrantUrl := "https://www.swoogo.com/loggedin/registrant/view?id=12345"
    homeNavOk := true
    homeAnchors := [⟨"https://www.swoogo.com/x/confirmation/12345", true⟩,
                    ⟨"https://www.swoogo.com/x/invoice/12345", true⟩]
    confNavOk := true
    confPage := ⟨1, true, 0⟩
    confActionsOk := true
    confMenuClickOk := true
    confFallbackPage := ⟨0, false, 0⟩
    invNavOk := true
    invActionsOk := true
    invMenuClickOk := true
    sendPage := ⟨none, none⟩
    ticketNavOk := true
    iframePage := ⟨true, true⟩
    qrPage := ⟨false, none, true⟩
    up := ⟨true, true⟩ }

/-- Like `envHappy` but a send-email anchor exists while the preview iframe
never attaches. -/
def envIframeTimeout : RegEnv :=
  { envHappy with
    sendPage := ⟨some "/loggedin/registrant/send-email?id=12345", none⟩,
    iframePage := ⟨false, true⟩ }

/-- Like `envIframeTimeout` but the iframe attaches and only its content
frame is unresolvable. -/
def envIframeNullFrame : RegEnv :=
  { envIframeTimeout with iframePage := ⟨true, false⟩ }

/-- Like `envHappy` but no anchor matches `invoice`, and the menu-click
fallback succeeds. -/
def envInvFallback : RegEnv :=
  { envHappy with
    homeAnchors := [⟨"https://www.swoogo.com/x/confirmation/12345", true⟩] }

/-- Like `envHappy` but navigation to the resolved confirmation URL fails. -/
def envConfNavFail : RegEnv := { envHappy with confNavOk := false }

/-- Like `envHappy` but the initial navigation to the registrant URL fails. -/
def envHomeNavFail : RegEnv := { envHappy with homeNavOk := false }

/-- A three-element page: a document element with inline `overflow: hidden`,
a body with no inline styles, and one scrollable container. -/
def pageEx : List PElem :=
  [⟨⟨"", "", "", "hidden"⟩, "visible", 100, 100, none⟩,
   ⟨⟨"", "", "", ""⟩, "visible", 100, 100, none⟩,
   ⟨⟨"150px", "", "auto", ""⟩, "", 300, 100, none⟩]

/-! ## C10 -/

/-- C10: for every registrant URL without a numeric `id` query parameter the
output directory and the blob name both collapse to the literal `unknown`,
so any two such entities in one run share the directory and the remote
object name `unknown.zip`. -/
theorem unknown_id_collapses_outputs (baseOut u1 u2 : String)
    (h1 : execParam (lc "id=") (lc u1) = none)
    (h2 : execParam (lc "id=") (lc u2) = none) :
    regDirOf baseOut u1 = regDirOf baseOut u2 ∧
    regDirOf baseOut u1 = baseOut ++ "/" ++ "unknown" ∧
    blobNameOf u1 = "unknown.zip" ∧ blobNameOf u2 = "unknown.zip" := by
  simp [regDirOf, blobNameOf, regIdOf, h1, h2]

/-- Witness for C10 at two concrete id-less registrant URLs. -/
theorem unknown_id_collapses_outputs_check :
    regDirOf "out" "https://www.swoogo.com/loggedin/registrant/view?eventId=255274" =
      regDirOf "out" "https://www.swoogo.com/loggedin/registrant/view?eventId=255274&ref=abc" ∧
    blobNameOf "https://www.swoogo.com/loggedin/registrant/view?eventId=255274" =
      "unknown.zip" := by
  have h := unknown_id_collapses_outputs "out"
    "https://www.swoogo.com/loggedin/registrant/view?eventId=255274"
    "https://www.swoogo.com/loggedin/registrant/view?eventId=255274&ref=abc"
    (by decide) (by decide)
  exact ⟨h.1, h.2.2.1⟩

/-! ## C9 -/

/-- C9 is false on the code: with a valid Azure configuration, usable entity
rows, and no `--in` flag the process exits 1, and with a usable row but an
unset `AZURE_BLOB_CONTAINER` the module-load exception also exits non-zero —
both are configuration conditions for which the claim demands exit zero. -/
theorem config_failure_exits_nonzero :
    programExit ⟨"conn", "cont", ""⟩ ⟨none, false, ""⟩ [⟨"", "12345", "255274"⟩] = 1 ∧
    buildUrls "" [⟨"", "12345", "255274"⟩] ≠ [] ∧
    programExit ⟨"conn", "", ""⟩ ⟨some "reg.csv", false, ""⟩ [⟨"", "12345", "255274"⟩] = 1 := by
  decide

/-- C9 (amended): the process exits zero exactly when the Azure client
builds, and either `--save-session` was passed or `--in` was given with at
least one usable row; every other condition (missing container variable,
missing `--in`, empty usable-row list) exits 1, while per-entity failures
never reach the exit status. -/
theorem exit_code_characterization (e : SysEnv) (a : CliArgs) (rows : List CsvRow) :
    programExit e a rows =
      if azureOk e && (a.saveSession || (a.inFile.isSome && !(buildUrls a.eventId rows).isEmpty)) then 0
      else 1 := by
  obtain ⟨inF, sS, evI⟩ := a
  unfold programExit
  cases inF <;> by_cases hz : azureOk e <;> by_cases hs : sS <;>
    by_cases he : buildUrls evI rows = [] <;>
    simp_all [List.isEmpty_iff]

/-! ## C4 -/

/-- C4 is false on the code: on a page with both an email-body selector
match and an embedded frame, `captureConfirmationEmail` screenshots the
frame body first, while the specified order screenshots the selector
region. -/
theorem confirmation_order_ctrex :
    (captureConfirmationEmail ⟨1, true, 1⟩ "out/12345" "12345").1 = ConfSource.iframeBody ∧
    (captureConfirmationEmailSpecOrder ⟨1, true, 1⟩ "out/12345" "12345").1 =
      ConfSource.regionSelector ∧
    (captureConfirmationEmail ⟨1, true, 1⟩ "out/12345" "12345").1 ≠
      (captureConfirmationEmailSpecOrder ⟨1, true, 1⟩ "out/12345" "12345").1 := by
  decide

/-- C4 (amended): the confirmation capture delegates to the embedded-frame
screenshot first whenever a frame exists and its screenshot succeeds; only
otherwise does it search the email-body candidate selectors; and only when
both fail does it fall back to the full-page file marked by the
`_Confirmation_full` name. -/
theorem confirmation_order_amended (p : ConfPage) (d b : String) :
    (p.iframeCount ≠ 0 → p.iframeShotOk = true →
      (captureConfirmationEmail p d b).1 = ConfSource.iframeBody) ∧
    ((p.iframeCount = 0 ∨ p.iframeShotOk = false) → p.emailCandCount ≠ 0 →
      (captureConfirmationEmail p d b).1 = ConfSource.regionSelector) ∧
    ((p.iframeCount = 0 ∨ p.iframeShotOk = false) → p.emailCandCount = 0 →
      (captureConfirmationEmail p d b) =
        (ConfSource.fullPage, d ++ "/" ++ b ++ "__05_Confirmation_full.png")) := by
  refine ⟨?_, ?_, ?_⟩
  · intro h1 h2
    simp [captureConfirmationEmail, h1, h2]
  · intro h1 h2
    rcases h1 with h1 | h1 <;> simp [captureConfirmationEmail, h1, h2]
  · intro h1 h2
    rcases h1 with h1 | h1 <;> simp [captureConfirmationEmail, h1, h2]

/-- Witness for the amended C4 at concrete pages. -/
theorem confirmation_order_amended_check :
    (captureConfirmationEmail ⟨1, true, 1⟩ "d" "b").1 = ConfSource.iframeBody ∧
    (captureConfirmationEmail ⟨0, true, 0⟩ "d" "b") =
      (ConfSource.fullPage, "d" ++ "/" ++ "b" ++ "__05_Confirmation_full.png") :=
  ⟨(confirmation_order_amended ⟨1, true, 1⟩ "d" "b").1 (by decide) rfl,
   (confirmation_order_amended ⟨0, true, 0⟩ "d" "b").2.2 (Or.inl rfl) rfl⟩

/-! ## C5 -/

/-- C5 is false on the code: when the preview iframe never attaches within
the bounded wait, `captureIframeBySrc` throws instead of falling back, and
the (error-swallowing) ticket step records no artifact at all although a
send-email address was resolved. -/
theorem iframe_timeout_no_artifact :
    captureIframeBySrc ⟨false, true⟩ "out/12345/12345__03_Ticket_Email_Preview.png" =
      Except.error () ∧
    (getSendEmailHref envIframeTimeout.sendPage envIframeTimeout.registrantUrl
      envIframeTimeout.registrantUrl).isSome = true ∧
    ticketStep envIframeTimeout "out/12345" "12345" = [] := by
  refine ⟨rfl, by decide, rfl⟩

/-- C5 (amended): the full-page degraded fallback (under the `__full` name)
happens only when the iframe element is found but its content frame is
unresolvable; when the element does not attach within the bounded wait the
TimeoutError propagates and the caller records no artifact. -/
theorem iframe_fallback_amended (env : RegEnv) (d b : String)
    (hs : (getSendEmailHref env.sendPage env.registrantUrl env.registrantUrl).isSome = true)
    (hn : env.ticketNavOk = true) :
    (env.iframePage.attached = false → ticketStep env d b = []) ∧
    (env.iframePage.attached = true → env.iframePage.contentFrameOk = false →
      ticketStep env d b =
        [(EvKind.ticketEmail, pngToFullName (d ++ "/" ++ b ++ "__03_Ticket_Email_Preview.png"))]) ∧
    (env.iframePage.attached = true → env.iframePage.contentFrameOk = true →
      ticketStep env d b =
        [(EvKind.ticketEmail, d ++ "/" ++ b ++ "__03_Ticket_Email_Preview.png")]) := by
  obtain ⟨u, hu⟩ := Option.isSome_iff_exists.mp hs
  unfold ticketStep
  rw [hu]
  refine ⟨?_, ?_, ?_⟩
  · intro h1
    simp [hn, captureIframeBySrc, h1]
  · intro h1 h2
    simp [hn, captureIframeBySrc, h1, h2]
  · intro h1 h2
    simp [hn, captureIframeBySrc, h1, h2]

/-- Witness for the amended C5 at concrete environments. -/
theorem iframe_fallback_amended_check :
    ticketStep envIframeTimeout "out/12345" "12345" = [] ∧
    ticketStep envIframeNullFrame "out/12345" "12345" =
      [(EvKind.ticketEmail,
        pngToFullName ("out/12345" ++ "/" ++ "12345" ++ "__03_Ticket_Email_Preview.png"))] :=
  ⟨(iframe_fallback_amended envIframeTimeout "out/12345" "12345" (by decide) (by decide)).1 (by decide),
   (iframe_fallback_amended envIframeNullFrame "out/12345" "12345" (by decide) (by decide)).2.1
     (by decide) (by decide)⟩

/-! ## C6 -/

/-- C6 is false on the code: with an earlier mixed-case match and a later
lower-case match, the case-sensitive CSS fast path returns the later anchor,
not the first DOM-order case-insensitive match demanded by the claim. -/
theorem dom_order_tiebreak_ctrex :
    findActionHrefByUrlContains "https://x.test/p"
        [⟨"/a/Invoice/1", true⟩, ⟨"/b/invoice/2", true⟩] ["invoice"] =
      some "https://x.test/b/invoice/2" ∧
    firstDomOrderCiHref "https://x.test/p"
        [⟨"/a/Invoice/1", true⟩, ⟨"/b/invoice/2", true⟩] ["invoice"] =
      some "https://x.test/a/Invoice/1" ∧
    findActionHrefByUrlContains "https://x.test/p"
        [⟨"/a/Invoice/1", true⟩, ⟨"/b/invoice/2", true⟩] ["invoice"] ≠
      firstDomOrderCiHref "https://x.test/p"
        [⟨"/a/Invoice/1", true⟩, ⟨"/b/invoice/2", true⟩] ["invoice"] := by
  decide

theorem fallbackScanHref_isSome (base : String) (anchors : List Anchor)
    (wanted : List (List Nat)) :
    (fallbackScanHref base anchors wanted).isSome =
      anchors.any (fun a => wanted.any (fun w => listHas w ((codes a.href).map lowerNat))) := by
  unfold fallbackScanHref
  rw [Option.isSome_map']
  rw [Bool.eq_iff_iff, List.find?_isSome, List.any_eq_true]

/-- A fast-path hit implies a case-insensitive hit for the same needle set. -/
theorem ciHit_of_quickHit (needles : List String) (a : Anchor)
    (h : (needles.map codesLower).any (fun w => listHas w (codes a.href)) = true) :
    (needles.map codesLower).any (fun w => listHas w ((codes a.href).map lowerNat)) = true := by
  rw [List.any_eq_true] at h ⊢
  obtain ⟨w, hw, hhit⟩ := h
  refine ⟨w, hw, ?_⟩
  obtain ⟨n, hn, rfl⟩ := List.mem_map.mp hw
  exact listHas_lower_of_listHas (codes n) hhit

/-- C6 (amended): a URL is returned exactly when some anchor's href contains
one of the keywords as a case-insensitive substring (and it is absolute
whenever the page URL is absolute); within each scan pass the first DOM-order
match wins, but the case-sensitive fast path can prefer a later lower-case
match over an earlier mixed-case one. -/
theorem href_resolution_amended (base : String) (anchors : List Anchor)
    (needles : List String) :
    ((findActionHrefByUrlContains base anchors needles).isSome =
      anchors.any (fun a =>
        (needles.map codesLower).any (fun w => listHas w ((codes a.href).map lowerNat)))) ∧
    (∀ u, findActionHrefByUrlContains base anchors needles = some u →
      isAbsUrl base = true → isAbsUrl u = true) := by
  constructor
  · unfold findActionHrefByUrlContains
    cases hf : anchors.find? (fun a =>
        (needles.map codesLower).any (fun w => listHas w (codes a.href))) with
    | none =>
      simp only [hf]
      exact fallbackScanHref_isSome base anchors (needles.map codesLower)
    | some a =>
      simp only [hf]
      by_cases hv : (a.visible && a.href ≠ "") = true
      · rw [if_pos hv]
        have hmem : a ∈ anchors := List.mem_of_find?_eq_some hf
        have hq := List.find?_some hf
        have hhit := ciHit_of_quickHit needles a hq
        rw [Option.isSome_some, Bool.eq_iff_iff, List.any_eq_true]
        exact ⟨fun _ => ⟨a, hmem, hhit⟩, fun _ => rfl⟩
      · rw [if_neg hv]
        exact fallbackScanHref_isSome base anchors (needles.map codesLower)
  · intro u hu habs
    unfold findActionHrefByUrlContains at hu
    have hfb : ∀ v, fallbackScanHref base anchors (needles.map codesLower) = some v →
        isAbsUrl v = true := by
      intro v hv
      unfold fallbackScanHref at hv
      obtain ⟨a, _, rfl⟩ := Option.map_eq_some'.mp hv
      exact isAbsUrl_resolveUrl base a.href habs
    cases hf : anchors.find? (fun a =>
        (needles.map codesLower).any (fun w => listHas w (codes a.href))) with
    | none =>
      simp only [hf] at hu
      exact hfb u hu
    | some a =>
      simp only [hf] at hu
      by_cases hv : (a.visible && a.href ≠ "") = true
      · rw [if_pos hv] at hu
        cases hu
        exact isAbsUrl_resolveUrl base a.href habs
      · rw [if_neg hv] at hu
        exact hfb u hu

/-- Witness for the amended C6 at a concrete page. -/
theorem href_resolution_amended_check :
    isAbsUrl "https://x.test/b/invoice/2" = true :=
  (href_resolution_amended "https://x.test/p"
      [⟨"/a/Invoice/1", true⟩, ⟨"/b/invoice/2", true⟩] ["invoice"]).2
    "https://x.test/b/invoice/2" (by decide) (by decide)

/-! ## C7 -/

theorem ne_of_length_ne {s t : String} (h : s.length ≠ t.length) : s ≠ t :=
  fun he => h (by rw [he])

theorem strLength_eq_data (s : String) : s.length = (lc s).length := rfl

/-- C7 is false on the code: the invoice menu-click fallback writes exactly
the file list of the clean direct-href capture, so the artifacts are
indistinguishable; only a console warning separates the two paths. -/
theorem invoice_fallback_indistinguishable :
    (invoiceStep cfgEx envHappy "out/12345" "12345").files =
      (invoiceStep cfgEx envInvFallback "out/12345" "12345").files ∧
    (findActionHrefByUrlContains envHappy.registrantUrl envHappy.homeAnchors
      ["invoice"]).isSome = true ∧
    (findActionHrefByUrlContains envInvFallback.registrantUrl envInvFallback.homeAnchors
      ["invoice"]).isSome = false := by
  decide

/-- C7 (amended): the confirmation full-page fallback and the ticket-email
content-frame fallback are marked in the artifact file name itself, but the
invoice menu-click fallback produces exactly the clean capture's file list,
distinguishable only by the console warning. -/
theorem degradation_marking_amended (p : ConfPage) (d b path : String)
    (hp4 : 4 ≤ (lc path).length)
    (hpng : listLeads (lc "gnp") ((lc path).reverse) = true) :
    ((captureConfirmationEmail p d b).1 = ConfSource.fullPage →
      (captureConfirmationEmail p d b).2 ≠ d ++ "/" ++ b ++ "__05_Confirmation_email.png") ∧
    pngToFullName path ≠ path ∧
    (∀ cfg envA envB,
      (findActionHrefByUrlContains envA.registrantUrl envA.homeAnchors ["invoice"]).isSome = true →
      envA.invNavOk = true →
      (findActionHrefByUrlContains envB.registrantUrl envB.homeAnchors ["invoice"]).isSome = false →
      envB.invActionsOk = true → envB.invMenuClickOk = true →
      (invoiceStep cfg envA d b).files = (invoiceStep cfg envB d b).files) := by
  refine ⟨?_, ?_, ?_⟩
  · intro hfp
    by_cases c1 : (p.iframeCount ≠ 0 && p.iframeShotOk) = true
    · exfalso
      unfold captureConfirmationEmail at hfp
      rw [if_pos c1] at hfp
      simp at hfp
    · by_cases c2 : p.emailCandCount ≠ 0
      · exfalso
        unfold captureConfirmationEmail at hfp
        rw [if_neg c1, if_pos c2] at hfp
        simp at hfp
      · unfold captureConfirmationEmail
        rw [if_neg c1, if_neg c2]
        apply ne_of_length_ne
        have l1 : ("__05_Confirmation_full.png" : String).length = 26 := by decide
        have l2 : ("__05_Confirmation_email.png" : String).length = 27 := by decide
        have l3 : ("/" : String).length = 1 := by decide
        simp only [String.length_append, l1, l2, l3]
        omega
  · have hcond : (listLeads (lc "gnp") ((lc path).reverse) &&
        4 ≤ (lc path).length) = true := by
      rw [Bool.and_eq_true]
      exact ⟨hpng, decide_eq_true hp4⟩
    unfold pngToFullName
    rw [if_pos hcond]
    apply ne_of_length_ne
    rw [strLength_eq_data path]
    unfold strOfChars
    rw [String.length_mk, List.length_append, List.length_take]
    have lf : (lc "__full.png").length = 10 := by decide
    rw [lf]
    omega
  · intro cfg envA envB hA hAn hB hBa hBm
    obtain ⟨u, hu⟩ := Option.isSome_iff_exists.mp hA
    have hBn : findActionHrefByUrlContains envB.registrantUrl envB.homeAnchors ["invoice"] = none :=
      Option.not_isSome_iff_eq_none.mp (by rw [hB]; simp)
    unfold invoiceStep
    simp only [hu, hBn]
    simp [hAn, hBa, hBm]

/-- Witness for the amended C7 at concrete inputs. -/
theorem degradation_marking_amended_check :
    pngToFullName "x.png" ≠ "x.png" ∧
    (invoiceStep cfgEx envHappy "out/12345" "12345").files =
      (invoiceStep cfgEx envInvFallback "out/12345" "12345").files := by
  have h := degradation_marking_amended ⟨0, true, 0⟩ "out/12345" "12345" "x.png"
    (by decide) (by decide)
  exact ⟨h.2.1, h.2.2 cfgEx envHappy envInvFallback (by decide) (by decide)
    (by decide) (by decide) (by decide)⟩

/-! ## C8 -/

/-- C8 is false on the code: the unconditional `overflow: visible` written to
the document element (and body) before the scrollable scan is never
restored, so the page is left in a modified style state after the capture
returns. -/
theorem root_styles_not_restored :
    captureFullPageStyles pageEx ≠ pageEx ∧
    (captureFullPageStyles pageEx).head?.map (fun e => e.style.overflow) = some "visible" ∧
    pageEx.head?.map (fun e => e.style.overflow) = some "hidden" := by
  decide

/-- C8 (amended): every element other than the document element and the body
ends the capture exactly in its original inline style (scrollable containers
have their saved height, max-height, overflow and overflow-y values written
back verbatim), but the document element's inline overflow is left at
`visible` on every page with at least two elements. -/
theorem style_restoration_amended (page : List PElem)
    (h : ∀ el ∈ page, el.preExpand = none) :
    (∀ i, 2 ≤ i → (captureFullPageStyles page)[i]? = page[i]?) ∧
    (∀ e1 e2 rest, page = e1 :: e2 :: rest →
      (captureFullPageStyles page).head?.map (fun e => e.style.overflow) = some "visible") := by
  constructor
  · intro i hi
    rw [captureFullPageStyles_eq_map, List.getElem?_map,
      overrideRootsOverflow_getElem page i hi]
    cases hp : page[i]? with
    | none => rfl
    | some el =>
      have hmem : el ∈ page := List.getElem?_mem hp
      simp [restoreOne_expandOne el (h el hmem)]
  · intro e1 e2 rest hpage
    subst hpage
    rw [captureFullPageStyles_eq_map]
    simp only [overrideRootsOverflow, List.map_cons, List.head?_cons, Option.map_some']
    rw [rootOverflow_after e1 (h e1 (by simp))]

/-- Witness for the amended C8 at a concrete page. -/
theorem style_restoration_amended_check :
    (captureFullPageStyles pageEx)[2]? = pageEx[2]? ∧
    (captureFullPageStyles pageEx).head?.map (fun e => e.style.overflow) = some "visible" := by
  have h := style_restoration_amended pageEx (by decide)
  exact ⟨h.1 2 (by decide), h.2 _ _ _ rfl⟩

/-! ## C1 -/

/-- C1 is false on the code: an entity can finish its job without error yet
with zero ticket-email and zero QR artifacts — no fallback capture is
produced when no send-email address resolves or when the QR link is not
visible. -/
theorem ticket_and_qr_can_be_silently_zero :
    countK (processRegistrant cfgEx envHappy) EvKind.ticketEmail = 0 ∧
    countK (processRegistrant cfgEx envHappy) EvKind.qr = 0 ∧
    (processRegistrant cfgEx envHappy).errored = false ∧
    ¬ (∀ k : EvKind, 1 ≤ countK (processRegistrant cfgEx envHappy) k) := by
  refine ⟨by decide, by decide, by decide, ?_⟩
  intro hall
  exact absurd (hall EvKind.ticketEmail) (by decide)

/-- C1 (amended): after a successful home navigation the attendance and
contact steps always produce an artifact, and the confirmation step produces
one whenever its action href resolves and the navigation to it succeeds; the
ticket-email and QR steps are best-effort and may produce nothing. -/
theorem artifact_presence_amended (cfg : Cfg) (env : RegEnv)
    (h : env.homeNavOk = true) :
    1 ≤ countK (processRegistrant cfg env) EvKind.attendance ∧
    1 ≤ countK (processRegistrant cfg env) EvKind.contact ∧
    (∀ u, findActionHrefByUrlContains env.registrantUrl env.homeAnchors ["confirmation"] = some u →
      env.confNavOk = true →
      1 ≤ countK (processRegistrant cfg env) EvKind.confirmation) := by
  obtain ⟨rest, hd⟩ := processRegistrant_files_decomp cfg env h
  refine ⟨?_, ?_, ?_⟩
  · unfold countK
    rw [hd]
    have h1 := length_captureFullPageFiles cfg.pdf (regDirOf cfg.baseOutDir env.registrantUrl ++
      "/" ++ safeName (regIdOf env.registrantUrl) ++ "__01_Attendance_Status_Proof")
    simp [List.countP_append, countP_tagged, countP_comp_tag]
    omega
  · unfold countK
    rw [hd]
    have h1 := length_captureFullPageFiles cfg.pdf (regDirOf cfg.baseOutDir env.registrantUrl ++
      "/" ++ safeName (regIdOf env.registrantUrl) ++ "__02_Contact_Details")
    simp [List.countP_append, countP_tagged, countP_comp_tag]
    omega
  · intro u hu hn
    have hcs : (confirmationStep env (regDirOf cfg.baseOutDir env.registrantUrl)
        (safeName (regIdOf env.registrantUrl))).files =
        [(EvKind.confirmation,
          (captureConfirmationEmail env.confPage (regDirOf cfg.baseOutDir env.registrantUrl)
            (safeName (regIdOf env.registrantUrl))).2)] := by
      unfold confirmationStep
      simp only [hu]
      simp [hn]
    unfold countK
    rw [hd, hcs]
    simp [List.countP_append, countP_tagged, countP_comp_tag, List.countP_cons]

/-- Witness for the amended C1 at a concrete environment. -/
theorem artifact_presence_amended_check :
    1 ≤ countK (processRegistrant cfgEx envHappy) EvKind.attendance ∧
    1 ≤ countK (processRegistrant cfgEx envHappy) EvKind.confirmation := by
  have h := artifact_presence_amended cfgEx envHappy (by decide)
  exact ⟨h.1, h.2.2 "https://www.swoogo.com/x/confirmation/12345" (by decide) (by decide)⟩

/-! ## C2 -/

/-- C2 is false on the code: when the initial navigation to the registrant
URL fails, no output directory is created at all for that entity (the
claim demands exactly one), even though the entity was processed and marked
failed. -/
theorem no_directory_on_failed_home_nav :
    (processRegistrant cfgEx envHomeNavFail).dirCreated = false ∧
    (processRegistrant cfgEx envHomeNavFail).errored = true := by
  decide

/-- C2 (amended): an output directory is created exactly when the initial
navigation succeeds, and from then on the lifecycle is atomic — the
directory is removed exactly when packaging is reached and both the zip and
the upload succeed, a remote object is referenced exactly in the same case,
and on an upload failure the temp archive is left behind while the
directory is kept. -/
theorem directory_lifecycle_amended (cfg : Cfg) (env : RegEnv) :
    (processRegistrant cfg env).dirCreated = env.homeNavOk ∧
    (processRegistrant cfg env).dirRemoved =
      (packagingReached env && env.up.zipOk && env.up.uploadOk) ∧
    (processRegistrant cfg env).remoteUrl.isSome =
      (packagingReached env && env.up.zipOk && env.up.uploadOk) ∧
    (processRegistrant cfg env).tmpZipRetained =
      (packagingReached env && env.up.zipOk && !env.up.uploadOk) := by
  by_cases hh : env.homeNavOk = true
  · unfold processRegistrant
    simp only [hh, Bool.true_eq_false, if_false]
    by_cases hc : confFatal env = true
    · simp only [confirmationStep_fatal_eq, hc, if_true]
      simp [packagingReached, hc, hh]
    · have hc' : confFatal env = false := by
        rw [Bool.not_eq_true] at hc
        exact hc
      simp only [confirmationStep_fatal_eq, hc', Bool.false_eq_true, if_false]
      by_cases hi : invFatal env = true
      · simp only [invoiceStep_fatal_eq, hi, if_true]
        simp [packagingReached, hi, hh]
      · have hi' : invFatal env = false := by
          rw [Bool.not_eq_true] at hi
          exact hi
        simp only [invoiceStep_fatal_eq, hi', Bool.false_eq_true, if_false]
        unfold uploadAndCleanupRegistrant
        by_cases hz : env.up.zipOk = true
        · by_cases hu2 : env.up.uploadOk = true
          · simp [hz, hu2, packagingReached, hh, hc', hi']
          · have hu2' : env.up.uploadOk = false := by
              rw [Bool.not_eq_true] at hu2
              exact hu2
            simp [hz, hu2', packagingReached, hh, hc', hi']
        · have hz' : env.up.zipOk = false := by
            rw [Bool.not_eq_true] at hz
            exact hz
          simp [hz', packagingReached, hh, hc', hi']
  · have hh' : env.homeNavOk = false := by
      rw [Bool.not_eq_true] at hh
      exact hh
    unfold processRegistrant
    simp [hh', packagingReached]

/-! ## C3 -/

/-- C3 is false on the code: a navigation failure on the resolved
confirmation URL propagates past the packaging block, so no zip or upload is
even attempted (with a perfectly working upload environment the remote URL
would otherwise exist), while the entity is marked failed. -/
theorem packaging_skipped_on_conf_nav_failure :
    (findActionHrefByUrlContains envConfNavFail.registrantUrl envConfNavFail.homeAnchors
      ["confirmation"]).isSome = true ∧
    envConfNavFail.up = ⟨true, true⟩ ∧
    (processRegistrant cfgEx envConfNavFail).errored = true ∧
    (processRegistrant cfgEx envConfNavFail).remoteUrl = none ∧
    (processRegistrant cfgEx envConfNavFail).dirRemoved = false := by
  decide

/-- C3 (amended): when navigation to a resolved confirmation URL fails the
remaining evidence states are skipped and the entity is marked failed, but
packaging and upload are skipped too — the local directory is retained with
only the attendance and contact captures. -/
theorem navigation_failure_amended (cfg : Cfg) (env : RegEnv) (u : String)
    (hh : env.homeNavOk = true)
    (hc : findActionHrefByUrlContains env.registrantUrl env.homeAnchors ["confirmation"] = some u)
    (hn : env.confNavOk = false) :
    (processRegistrant cfg env).errored = true ∧
    (processRegistrant cfg env).remoteUrl = none ∧
    (processRegistrant cfg env).dirRemoved = false ∧
    (processRegistrant cfg env).dirCreated = true ∧
    countK (processRegistrant cfg env) EvKind.confirmation = 0 ∧
    countK (processRegistrant cfg env) EvKind.invoice = 0 ∧
    countK (processRegistrant cfg env) EvKind.ticketEmail = 0 ∧
    countK (processRegistrant cfg env) EvKind.qr = 0 ∧
    1 ≤ countK (processRegistrant cfg env) EvKind.attendance ∧
    1 ≤ countK (processRegistrant cfg env) EvKind.contact := by
  have hcs : confirmationStep env (regDirOf cfg.baseOutDir env.registrantUrl)
      (safeName (regIdOf env.registrantUrl)) = ⟨[], true⟩ := by
    unfold confirmationStep
    simp only [hc]
    simp [hn]
  have hres : processRegistrant cfg env =
      { dirCreated := true,
        files :=
          (captureFullPageFiles cfg.pdf (regDirOf cfg.baseOutDir env.registrantUrl ++ "/" ++
            safeName (regIdOf env.registrantUrl) ++ "__01_Attendance_Status_Proof")).map
              (fun f => (EvKind.attendance, f)) ++
          (captureFullPageFiles cfg.pdf (regDirOf cfg.baseOutDir env.registrantUrl ++ "/" ++
            safeName (regIdOf env.registrantUrl) ++ "__02_Contact_Details")).map
              (fun f => (EvKind.contact, f)) ++ [],
        remoteUrl := none, dirRemoved := false, tmpZipRetained := false,
        errored := true } := by
    unfold processRegistrant
    simp only [hh, Bool.true_eq_false, if_false, hcs]
    simp
  rw [hres]
  have h1 := length_captureFullPageFiles cfg.pdf (regDirOf cfg.baseOutDir
    env.registrantUrl ++ "/" ++ safeName (regIdOf env.registrantUrl) ++
    "__01_Attendance_Status_Proof")
  have h2 := length_captureFullPageFiles cfg.pdf (regDirOf cfg.baseOutDir
    env.registrantUrl ++ "/" ++ safeName (regIdOf env.registrantUrl) ++
    "__02_Contact_Details")
  refine ⟨rfl, rfl, rfl, rfl, ?_, ?_, ?_, ?_, ?_, ?_⟩ <;>
    unfold countK <;> simp [List.countP_append, countP_tagged, countP_comp_tag] <;> omega

/-- Witness for the amended C3 at a concrete environment. -/
theorem navigation_failure_amended_check :
    (processRegistrant cfgEx envConfNavFail).errored = true ∧
    countK (processRegistrant cfgEx envConfNavFail) EvKind.invoice = 0 := by
  have h := navigation_failure_amended cfgEx envConfNavFail
    "https://www.swoogo.com/x/confirmation/12345" (by decide) (by decide) (by decide)
  exact ⟨h.1, h.2.2.2.2.2.1⟩

end Capture
